import Mathlib

/-!
Verification of the health-insurance analytics pipeline
(`src/etl.py`, `src/analysis.py`).

The Python code manipulates pandas DataFrames.  We embed the pipeline
shallowly: a DataFrame is a `List` of records, numeric cells are `ℚ`
(the float expressions in the source are formula-identical, and every
claim under test is about exact formula or structural behaviour, not about
binary rounding), missing cells (`NaN` in a raw CSV column) are `Option`,
and pandas operations that can produce `NaN` results return `Option ℚ`
(`none` models the `NaN` produced by, e.g., the mean of an empty series).
Fallible operations return `Except`.
-/

set_option maxRecDepth 8000

namespace H1

/-! ## Data model (`src/etl.py`)

Raw CSV rows have the seven schema columns; any cell may be missing
(pandas `NaN`), which `dropna` removes row-wise. -/

/-- One raw CSV row.  `none` in a field models a missing (`NaN`) cell. -/
structure RawRecord where
  age : Option ℚ
  sex : Option String
  bmi : Option ℚ
  children : Option ℕ
  smoker : Option String
  region : Option String
  charges : Option ℚ
deriving DecidableEq

/-- A raw row in which all seven cells are present (survivor of `dropna`). -/
structure CompleteRecord where
  age : ℚ
  sex : String
  bmi : ℚ
  children : ℕ
  smoker : String
  region : String
  charges : ℚ
deriving DecidableEq

/-- The four labels of the `bmi_category` column (`etl.py` line 81). -/
inductive BmiCat where
  | Underweight | Normal | Overweight | Obese
deriving DecidableEq

/-- The five labels of the `age_group` column (`etl.py` line 88). -/
inductive AgeGrp where
  | g18_25 | g26_35 | g36_45 | g46_55 | g56plus
deriving DecidableEq

/-- One row of the processed (transformed) DataFrame: the seven raw
columns plus the four derived columns.  `bmi_category` / `age_group`
are `Option` because `pd.cut` yields `NaN` for values outside the bins. -/
structure ProcRecord where
  age : ℚ
  sex : String
  bmi : ℚ
  children : ℕ
  smoker : String
  region : String
  charges : ℚ
  bmi_category : Option BmiCat
  age_group : Option AgeGrp
  is_smoker : ℤ
  charges_per_person : ℚ
deriving DecidableEq

/-- `pd.cut(v, bins, labels)` with the pandas default `right=True`:
the value `v` receives label `i` exactly when `bins[i] < v ≤ bins[i+1]`;
values in no bin get `NaN` (`none`).  (With an explicit bin list pandas
applies no edge adjustment.) -/
def pdCut {α : Type} : List ℚ → List α → ℚ → Option α
  | b1 :: b2 :: bs, l :: ls, v =>
      if b1 < v ∧ v ≤ b2 then some l else pdCut (b2 :: bs) ls v
  | _, _, _ => none

/-- Row-wise `dropna` (`etl.py` line 66): a row survives iff every one of
the seven cells is present. -/
def dropnaRow (r : RawRecord) : Option CompleteRecord :=
  match r.age, r.sex, r.bmi, r.children, r.smoker, r.region, r.charges with
  | some a, some s, some b, some c, some sm, some re, some ch =>
      some ⟨a, s, b, c, sm, re, ch⟩
  | _, _, _, _, _, _, _ => none

/-- The feature-derivation step of `transform` (`etl.py` lines 71-95):
categorical typing (`astype('category')` changes the dtype only — the
string values pass through unchecked), `pd.cut` for `bmi_category` and
`age_group`, the binary `is_smoker` flag, and `charges_per_person`. -/
def derive (c : CompleteRecord) : ProcRecord :=
  { age := c.age
    sex := c.sex
    bmi := c.bmi
    children := c.children
    smoker := c.smoker
    region := c.region
    charges := c.charges
    bmi_category :=
      pdCut [0, 18.5, 25, 30, 100]
        [BmiCat.Underweight, BmiCat.Normal, BmiCat.Overweight, BmiCat.Obese] c.bmi
    age_group :=
      pdCut [0, 25, 35, 45, 55, 100]
        [AgeGrp.g18_25, AgeGrp.g26_35, AgeGrp.g36_45, AgeGrp.g46_55, AgeGrp.g56plus]
        c.age
    is_smoker := if c.smoker = "yes" then 1 else 0
    charges_per_person := c.charges / ((c.children : ℚ) + 1) }

/-- `HealthInsuranceETL.transform` (`etl.py` lines 47-100) on an explicit
input dataset: drop incomplete rows, then derive the four features
per row.  Row order is preserved. -/
def transform (raw : List RawRecord) : List ProcRecord :=
  raw.filterMap (fun r => (dropnaRow r).map derive)

/-- Membership characterisation of `transform`: exactly the complete rows
survive, each mapped through `derive`. -/
theorem mem_transform {raw : List RawRecord} {p : ProcRecord} :
    p ∈ transform raw ↔ ∃ r ∈ raw, ∃ c, dropnaRow r = some c ∧ p = derive c := by
  unfold transform
  rw [List.mem_filterMap]
  constructor
  · rintro ⟨r, hr, hmap⟩
    rcases Option.map_eq_some'.mp hmap with ⟨c, hc, hdc⟩
    exact ⟨r, hr, c, hc, hdc.symm⟩
  · rintro ⟨r, hr, c, hc, hp⟩
    exact ⟨r, hr, by rw [hc, hp, Option.map_some']⟩

/-! ## C1: bucket breakpoints of `bmi_category` and `age_group` -/

/-- The `bmi_category` breakpoints as amended: `pd.cut` with explicit
bins is right-closed, so the intervals are `(0,18.5]=Underweight`,
`(18.5,25]=Normal`, `(25,30]=Overweight`, `(30,100]=Obese`. -/
def bmiCategorySpec (v : ℚ) : Option BmiCat :=
  if 0 < v ∧ v ≤ 18.5 then some BmiCat.Underweight
  else if 18.5 < v ∧ v ≤ 25 then some BmiCat.Normal
  else if 25 < v ∧ v ≤ 30 then some BmiCat.Overweight
  else if 30 < v ∧ v ≤ 100 then some BmiCat.Obese
  else none

/-- The `age_group` breakpoints as in the claim (already right-closed):
`(0,25]=18-25`, `(25,35]=26-35`, `(35,45]=36-45`, `(45,55]=46-55`,
`(55,100]=56+`. -/
def ageGroupSpec (v : ℚ) : Option AgeGrp :=
  if 0 < v ∧ v ≤ 25 then some AgeGrp.g18_25
  else if 25 < v ∧ v ≤ 35 then some AgeGrp.g26_35
  else if 35 < v ∧ v ≤ 45 then some AgeGrp.g36_45
  else if 45 < v ∧ v ≤ 55 then some AgeGrp.g46_55
  else if 55 < v ∧ v ≤ 100 then some AgeGrp.g56plus
  else none

theorem pdCut_bmi_eq (v : ℚ) :
    pdCut [0, 18.5, 25, 30, 100]
      [BmiCat.Underweight, BmiCat.Normal, BmiCat.Overweight, BmiCat.Obese] v
    = bmiCategorySpec v := rfl

theorem pdCut_age_eq (v : ℚ) :
    pdCut [0, 25, 35, 45, 55, 100]
      [AgeGrp.g18_25, AgeGrp.g26_35, AgeGrp.g36_45, AgeGrp.g46_55, AgeGrp.g56plus] v
    = ageGroupSpec v := rfl

/-- A one-row raw dataset with `bmi = 18.5` exactly on the first breakpoint. -/
def rawC1 : List RawRecord :=
  [⟨some 30, some "female", some 18.5, some 0, some "no", some "southwest", some 1000⟩]

/-- The complete row of `rawC1`. -/
def cmpC1 : CompleteRecord := ⟨30, "female", 18.5, 0, "no", "southwest", 1000⟩

/-- C1 counterexample: `pd.cut` bins are right-closed, so the processed
record with `bmi = 18.5` gets `bmi_category = Underweight`, not the
`Normal` the claim asserts for the boundary value `18.5`. -/
theorem C1_boundary_counterexample :
    (transform rawC1).map (fun p => p.bmi_category) = [some BmiCat.Underweight]
    ∧ some BmiCat.Underweight ≠ some BmiCat.Normal := by
  with_unfolding_all decide

/-- C1 (amended): for every record surviving the completeness filter,
`transform` assigns `bmi_category` and `age_group` per the right-closed
breakpoints `{(0,18.5]=Underweight, (18.5,25]=Normal, (25,30]=Overweight,
(30,100]=Obese}` and `{(0,25]=18-25, (25,35]=26-35, (35,45]=36-45,
(45,55]=46-55, (55,100]=56+}`; the boundary values map as
`bmi=18.5 ↦ Underweight`, `bmi=25 ↦ Normal`, `bmi=30 ↦ Overweight`,
`age=25 ↦ 18-25`, `age=26 ↦ 26-35`. -/
theorem C1_bucket_breakpoints :
    (∀ (raw : List RawRecord) (p : ProcRecord), p ∈ transform raw →
      p.bmi_category = bmiCategorySpec p.bmi ∧ p.age_group = ageGroupSpec p.age)
    ∧ bmiCategorySpec 18.5 = some BmiCat.Underweight
    ∧ bmiCategorySpec 25 = some BmiCat.Normal
    ∧ bmiCategorySpec 30 = some BmiCat.Overweight
    ∧ ageGroupSpec 25 = some AgeGrp.g18_25
    ∧ ageGroupSpec 26 = some AgeGrp.g26_35 := by
  refine ⟨?_, ?b1, ?b2, ?b3, ?b4, ?b5⟩
  case b1 => with_unfolding_all decide
  case b2 => with_unfolding_all decide
  case b3 => with_unfolding_all decide
  case b4 => with_unfolding_all decide
  case b5 => with_unfolding_all decide
  intro raw p hp
  rcases mem_transform.mp hp with ⟨r, _, c, _, rfl⟩
  exact ⟨pdCut_bmi_eq c.bmi, pdCut_age_eq c.age⟩

/-- Witness for `C1_bucket_breakpoints` at the concrete record of `rawC1`. -/
theorem C1_bucket_breakpoints_witness :
    (derive cmpC1).bmi_category = bmiCategorySpec (derive cmpC1).bmi
    ∧ (derive cmpC1).age_group = ageGroupSpec (derive cmpC1).age :=
  C1_bucket_breakpoints.1 rawC1 (derive cmpC1) (by with_unfolding_all decide)

/-! ## C4: out-of-domain categorical values are kept, not dropped -/

/-- A complete raw row whose `sex`, `smoker` and `region` are all outside
the documented domains. -/
def rawC4 : List RawRecord :=
  [⟨some 40, some "other", some 22, some 1, some "maybe", some "atlantis", some 500⟩]

/-- The complete row of `rawC4`. -/
def cmpC4 : CompleteRecord := ⟨40, "other", 22, 1, "maybe", "atlantis", 500⟩

/-- C4 counterexample: `astype('category')` only retypes the column and
performs no domain check, so a record with `sex="other"`,
`smoker="maybe"`, `region="atlantis"` survives `transform` — the claim
says it is dropped. -/
theorem C4_counterexample :
    (transform rawC4).length = 1
    ∧ (transform rawC4).map (fun p => (p.sex, p.smoker, p.region))
        = [("other", "maybe", "atlantis")]
    ∧ "other" ∉ ["male", "female"] := by
  with_unfolding_all decide

/-- C4 (amended): `transform` keeps records with out-of-domain
categorical values; the only row filter is the completeness filter, so
every complete row survives (its categorical strings untouched) and the
number of surviving rows is exactly the number of complete rows. -/
theorem C4_no_domain_exclusion :
    (∀ (raw : List RawRecord) (r : RawRecord) (c : CompleteRecord),
        r ∈ raw → dropnaRow r = some c → derive c ∈ transform raw)
    ∧ ∀ raw : List RawRecord,
        (transform raw).length = raw.countP (fun r => (dropnaRow r).isSome) := by
  constructor
  · intro raw r c hr hc
    exact mem_transform.mpr ⟨r, hr, c, hc, rfl⟩
  · intro raw
    induction raw with
    | nil => rfl
    | cons r t ih =>
      unfold transform at ih ⊢
      rw [List.filterMap_cons, List.countP_cons]
      cases h : dropnaRow r <;> simp [h, ih]

/-- Witness for `C4_no_domain_exclusion` at the out-of-domain record. -/
theorem C4_no_domain_exclusion_witness :
    derive cmpC4 ∈ transform rawC4 :=
  C4_no_domain_exclusion.1 rawC4
    ⟨some 40, some "other", some 22, some 1, some "maybe", some "atlantis", some 500⟩
    cmpC4 (by with_unfolding_all decide) (by with_unfolding_all decide)

/-! ## C7: `charges_per_person` formula -/

/-- C7: for every record of the processed dataset,
`charges_per_person = charges / (children + 1)` exactly
(`etl.py` line 95). -/
theorem C7_charges_per_person :
    ∀ (raw : List RawRecord) (p : ProcRecord), p ∈ transform raw →
      p.charges_per_person = p.charges / ((p.children : ℚ) + 1) := by
  intro raw p hp
  rcases mem_transform.mp hp with ⟨r, _, c, _, rfl⟩
  rfl

/-- Witness for `C7_charges_per_person` at the concrete record of `rawC1`. -/
theorem C7_charges_per_person_witness :
    (derive cmpC1).charges_per_person
      = (derive cmpC1).charges / (((derive cmpC1).children : ℚ) + 1) :=
  C7_charges_per_person rawC1 (derive cmpC1) (by with_unfolding_all decide)

/-! ## Analyzer (`src/analysis.py`)

The analyzer reads a processed dataset (`List ProcRecord`).  pandas
reductions that give `NaN` on an empty series (`mean`, `median`, `min`,
`max`) are modelled with `Option ℚ`, `none` standing for `NaN`; `NaN`
propagates through arithmetic exactly as `Option.bind` propagates
`none`. -/

/-- `Series.mean()`: `NaN` (`none`) on an empty series, else the
arithmetic mean. -/
def seriesMean (xs : List ℚ) : Option ℚ :=
  if xs.isEmpty then none else some (xs.sum / (xs.length : ℚ))

/-- Result shape of `analyze_smoker_impact` (`analysis.py` lines 66-73). -/
structure SmokerImpact where
  smoker_avg : Option ℚ
  non_smoker_avg : Option ℚ
  difference : Option ℚ
  percentage_increase : Option ℚ
  smoker_count : ℕ
  non_smoker_count : ℕ
deriving DecidableEq

/-- `HealthInsuranceAnalyzer.analyze_smoker_impact` (`analysis.py`
lines 56-75): means of `charges` over the `smoker == 'yes'` and
`smoker == 'no'` slices, their difference, and
`(smoker_mean / non_smoker_mean - 1) * 100`.  The function is total:
when a slice is empty its mean is `NaN` and the `NaN` propagates into
`difference` and `percentage_increase` — no exception is raised. -/
def analyzeSmokerImpact (d : List ProcRecord) : SmokerImpact :=
  let smoker := (d.filter (fun r => r.smoker = "yes")).map (fun r => r.charges)
  let nonSmoker := (d.filter (fun r => r.smoker = "no")).map (fun r => r.charges)
  { smoker_avg := seriesMean smoker
    non_smoker_avg := seriesMean nonSmoker
    difference := do
      let a ← seriesMean smoker
      let b ← seriesMean nonSmoker
      pure (a - b)
    percentage_increase := do
      let a ← seriesMean smoker
      let b ← seriesMean nonSmoker
      pure ((a / b - 1) * 100)
    smoker_count := smoker.length
    non_smoker_count := nonSmoker.length }

/-- A processed dataset whose records are all smokers. -/
def allSmokersD : List ProcRecord :=
  [{ age := 30, sex := "male", bmi := 24, children := 0, smoker := "yes",
     region := "southwest", charges := 100,
     bmi_category := some BmiCat.Normal, age_group := some AgeGrp.g26_35,
     is_smoker := 1, charges_per_person := 100 }]

/-- C2 counterexample: on a dataset with zero non-smoker records,
`analyze_smoker_impact` returns normally with
`percentage_increase = NaN` (modelled `none`) — it neither raises a
distinct catchable error nor returns a non-`NaN` sentinel, contradicting
the claim's error-handling half. -/
theorem C2_nan_counterexample :
    (analyzeSmokerImpact allSmokersD).non_smoker_count = 0
    ∧ (analyzeSmokerImpact allSmokersD).percentage_increase = none
    ∧ (analyzeSmokerImpact allSmokersD).smoker_avg = some 100 := by
  with_unfolding_all decide

/-- C2 (amended): whenever both slices are non-empty,
`percentage_increase` equals `(smoker_mean / non_smoker_mean - 1) * 100`
for the two slice means; and whenever the non-smoker slice is empty the
method returns normally with `percentage_increase = NaN` (`none`)
instead of signalling a division-by-zero condition. -/
theorem C2_smoker_impact :
    (∀ d : List ProcRecord,
      (d.filter (fun r => r.smoker = "yes")) ≠ [] →
      (d.filter (fun r => r.smoker = "no")) ≠ [] →
      ∃ a b : ℚ,
        (analyzeSmokerImpact d).smoker_avg = some a
        ∧ (analyzeSmokerImpact d).non_smoker_avg = some b
        ∧ (analyzeSmokerImpact d).percentage_increase = some ((a / b - 1) * 100))
    ∧ ∀ d : List ProcRecord,
      (d.filter (fun r => r.smoker = "no")) = [] →
      (analyzeSmokerImpact d).percentage_increase = none := by
  constructor
  · intro d h1 h2
    refine ⟨((d.filter (fun r => r.smoker = "yes")).map (fun r => r.charges)).sum
        / (((d.filter (fun r => r.smoker = "yes")).map (fun r => r.charges)).length : ℚ),
      ((d.filter (fun r => r.smoker = "no")).map (fun r => r.charges)).sum
        / (((d.filter (fun r => r.smoker = "no")).map (fun r => r.charges)).length : ℚ),
      ?_, ?_, ?_⟩ <;>
      simp [analyzeSmokerImpact, seriesMean, List.isEmpty_iff, List.map_eq_nil_iff, h1, h2,
        Option.bind_eq_bind]
  · intro d h2
    simp [analyzeSmokerImpact, seriesMean, List.isEmpty_iff, List.map_eq_nil_iff, h2]

/-- A processed dataset with one smoker and one non-smoker. -/
def mixedD : List ProcRecord :=
  [{ age := 30, sex := "male", bmi := 24, children := 0, smoker := "yes",
     region := "southwest", charges := 90,
     bmi_category := some BmiCat.Normal, age_group := some AgeGrp.g26_35,
     is_smoker := 1, charges_per_person := 90 },
   { age := 40, sex := "female", bmi := 31, children := 2, smoker := "no",
     region := "northeast", charges := 30,
     bmi_category := some BmiCat.Obese, age_group := some AgeGrp.g36_45,
     is_smoker := 0, charges_per_person := 10 }]

/-- Witness for `C2_smoker_impact` on the concrete mixed dataset. -/
theorem C2_smoker_impact_witness :
    (∃ a b : ℚ,
      (analyzeSmokerImpact mixedD).smoker_avg = some a
      ∧ (analyzeSmokerImpact mixedD).non_smoker_avg = some b
      ∧ (analyzeSmokerImpact mixedD).percentage_increase = some ((a / b - 1) * 100))
    ∧ (analyzeSmokerImpact allSmokersD).percentage_increase = none :=
  ⟨C2_smoker_impact.1 mixedD (by with_unfolding_all decide)
      (by with_unfolding_all decide),
   C2_smoker_impact.2 allSmokersD (by with_unfolding_all decide)⟩

/-! ## Sorting, quantiles, rounding -/

/-- Ascending sort, the order pandas uses for quantiles. -/
def sortQ (xs : List ℚ) : List ℚ := List.insertionSort (fun a b => a ≤ b) xs

/-- `Series.quantile(q)` with the pandas default linear interpolation on
the sorted values: `h = q*(n-1)`, result
`s[⌊h⌋] + (h-⌊h⌋)*(s[⌊h⌋+1] - s[⌊h⌋])` (last element when `⌊h⌋+1`
runs off the end).  `NaN` (`none`) on an empty series. -/
def quantileLin (xs : List ℚ) (q : ℚ) : Option ℚ :=
  if xs.isEmpty then none
  else
    let s := sortQ xs
    let n := s.length
    let h : ℚ := q * ((n : ℚ) - 1)
    let i : ℕ := (Int.floor h).toNat
    if i + 1 < n then
      some (s.getD i 0 + (h - (i : ℚ)) * (s.getD (i + 1) 0 - s.getD i 0))
    else some (s.getD (n - 1) 0)

/-- `Series.min()`: `NaN` (`none`) on an empty series. -/
def listMin : List ℚ → Option ℚ
  | [] => none
  | x :: t =>
    match listMin t with
    | none => some x
    | some m => some (min x m)

/-- `Series.max()`: `NaN` (`none`) on an empty series. -/
def listMax : List ℚ → Option ℚ
  | [] => none
  | x :: t =>
    match listMax t with
    | none => some x
    | some m => some (max x m)

/-- `round(p)` of pandas/numpy: round half to even at `p` decimal
places. -/
def roundTo (p : ℕ) (x : ℚ) : ℚ :=
  let m : ℚ := (10 : ℚ) ^ p
  let y := x * m
  let f : ℤ := Int.floor y
  let r : ℚ := y - (f : ℚ)
  let n : ℤ :=
    if r < 1 / 2 then f
    else if 1 / 2 < r then f + 1
    else if f % 2 = 0 then f else f + 1
  (n : ℚ) / m

/-! ## `analyze_charges_by_factor` (`analysis.py` lines 32-54)

`groupby(factor, observed=False)['charges'].agg(...)` semantics:
 * grouping keys come from the column's *declared* category levels
   (`observed=False` keeps levels with no observations);
 * for a column typed by `astype('category')` the declared levels are
   the distinct values observed in that column; for a column produced
   by `pd.cut` they are the fixed label list, observed or not;
 * rows whose key cell is `NaN` belong to no group;
 * `'count'` counts the non-`NaN` `charges` cells of the group (charges
   is never `NaN` after `dropna`, so it is the group size).
pandas orders string/numeric levels lexicographically; level order is
immaterial to every property below, so `dedup` (first-occurrence) order
is used.  The `std` aggregate is omitted from the embedding: it is the
square root of the sample variance, irrational in general, and no claim
mentions it. -/

/-- The grouping columns the repository uses
(`smoker`/`region`/`sex`/`children`/`bmi_category`/`age_group`).
`analyze_charges_by_factor` raises `ValueError` for a name that is not
a column; the closed enumeration keeps only the valid ones. -/
inductive Factor where
  | sex | smoker | region | children | bmiCategory | ageGroup
deriving DecidableEq

/-- A grouping-key value: a categorical string, a `children` count, or a
derived `pd.cut` label. -/
inductive KeyVal where
  | str : String → KeyVal
  | num : ℕ → KeyVal
  | bmiC : BmiCat → KeyVal
  | ageG : AgeGrp → KeyVal
deriving DecidableEq

/-- The grouping-key cell of one row; `none` is a `NaN` key (possible
only for the `pd.cut` columns), whose row belongs to no group. -/
def key (f : Factor) (r : ProcRecord) : Option KeyVal :=
  match f with
  | .sex => some (.str r.sex)
  | .smoker => some (.str r.smoker)
  | .region => some (.str r.region)
  | .children => some (.num r.children)
  | .bmiCategory => r.bmi_category.map .bmiC
  | .ageGroup => r.age_group.map .ageG

/-- The declared category levels of the grouping column (see the section
comment): observed distinct values for `astype('category')`/numeric
columns, the fixed label list for the `pd.cut` columns. -/
def levels (f : Factor) (d : List ProcRecord) : List KeyVal :=
  match f with
  | .sex => ((d.map (fun r => r.sex)).dedup).map .str
  | .smoker => ((d.map (fun r => r.smoker)).dedup).map .str
  | .region => ((d.map (fun r => r.region)).dedup).map .str
  | .children => ((d.map (fun r => r.children)).dedup).map .num
  | .bmiCategory =>
      [.bmiC BmiCat.Underweight, .bmiC BmiCat.Normal,
       .bmiC BmiCat.Overweight, .bmiC BmiCat.Obese]
  | .ageGroup =>
      [.ageG AgeGrp.g18_25, .ageG AgeGrp.g26_35, .ageG AgeGrp.g36_45,
       .ageG AgeGrp.g46_55, .ageG AgeGrp.g56plus]

/-- One row of the `agg` result, rounded to 2 decimals
(`analysis.py` line 52). -/
structure GroupStats where
  count : ℕ
  mean : Option ℚ
  median : Option ℚ
  min : Option ℚ
  max : Option ℚ
deriving DecidableEq

/-- The aggregates of `charges` over one group. -/
def groupStatsOf (d : List ProcRecord) (f : Factor) (lv : KeyVal) : GroupStats :=
  let cs := (d.filter (fun r => key f r = some lv)).map (fun r => r.charges)
  { count := cs.length
    mean := (seriesMean cs).map (roundTo 2)
    median := (quantileLin cs (1 / 2)).map (roundTo 2)
    min := (listMin cs).map (roundTo 2)
    max := (listMax cs).map (roundTo 2) }

/-- `HealthInsuranceAnalyzer.analyze_charges_by_factor`: one output row
per declared category level, in level order. -/
def chargesByFactor (d : List ProcRecord) (f : Factor) : List (KeyVal × GroupStats) :=
  (levels f d).map (fun lv => (lv, groupStatsOf d f lv))

/-- The sum of the per-group `count` column of `chargesByFactor`. -/
def sumCounts (d : List ProcRecord) (f : Factor) : ℕ :=
  ((chargesByFactor d f).map (fun p => p.2.count)).sum

/-! ## C3 / C10: group structure of `chargesByFactor` -/

theorem groupStats_count (d : List ProcRecord) (f : Factor) (lv : KeyVal) :
    (groupStatsOf d f lv).count = d.countP (fun r => key f r = some lv) := by
  simp [groupStatsOf, List.countP_eq_length_filter]

theorem levels_nodup (f : Factor) (d : List ProcRecord) : (levels f d).Nodup := by
  cases f
  case sex =>
    exact (List.nodup_dedup _).map fun a b h => by injection h
  case smoker =>
    exact (List.nodup_dedup _).map fun a b h => by injection h
  case region =>
    exact (List.nodup_dedup _).map fun a b h => by injection h
  case children =>
    exact (List.nodup_dedup _).map fun a b h => by injection h
  case bmiCategory => simp [levels]
  case ageGroup => simp [levels]

/-- Every non-`NaN` grouping key of a row of `d` is a declared level. -/
theorem key_mem_levels (f : Factor) (d : List ProcRecord) (r : ProcRecord)
    (hr : r ∈ d) (k : KeyVal) (hk : key f r = some k) : k ∈ levels f d := by
  cases f
  case sex =>
    cases hk
    exact List.mem_map_of_mem _ (List.mem_dedup.mpr (List.mem_map_of_mem _ hr))
  case smoker =>
    cases hk
    exact List.mem_map_of_mem _ (List.mem_dedup.mpr (List.mem_map_of_mem _ hr))
  case region =>
    cases hk
    exact List.mem_map_of_mem _ (List.mem_dedup.mpr (List.mem_map_of_mem _ hr))
  case children =>
    cases hk
    exact List.mem_map_of_mem _ (List.mem_dedup.mpr (List.mem_map_of_mem _ hr))
  case bmiCategory =>
    rcases Option.map_eq_some'.mp hk with ⟨b, _, rfl⟩
    cases b <;> simp [levels]
  case ageGroup =>
    rcases Option.map_eq_some'.mp hk with ⟨g, _, rfl⟩
    cases g <;> simp [levels]

theorem countP_or_disjoint {α : Type} (p q : α → Bool) (l : List α)
    (h : ∀ x ∈ l, ¬(p x = true ∧ q x = true)) :
    l.countP (fun x => p x || q x) = l.countP p + l.countP q := by
  induction l with
  | nil => simp
  | cons a t ih =>
    rw [List.countP_cons, List.countP_cons, List.countP_cons,
      ih (fun x hx => h x (List.mem_cons_of_mem a hx))]
    have ha := h a (List.mem_cons_self a t)
    cases hp : p a <;> cases hq : q a <;> simp [hp, hq] at ha ⊢ <;> omega

/-- Summing the group sizes over a duplicate-free list of keys counts
the rows whose key is one of them. -/
theorem sum_countP_keys (d : List ProcRecord) (f : Factor) :
    ∀ L : List KeyVal, L.Nodup →
      ((L.map (fun lv => d.countP (fun r => key f r = some lv))).sum
        = d.countP (fun r => decide (∃ lv ∈ L, key f r = some lv))) := by
  intro L
  induction L with
  | nil => simp
  | cons a t ih =>
    intro hnd
    rw [List.nodup_cons] at hnd
    rw [List.map_cons, List.sum_cons, ih hnd.2]
    rw [← countP_or_disjoint]
    · refine List.countP_congr fun r _ => ?_
      simp only [Bool.or_eq_true, decide_eq_true_eq]
      constructor
      · rintro (h1 | h2)
        · exact ⟨a, List.mem_cons_self a t, h1⟩
        · rcases h2 with ⟨lv, hlv, hkey⟩
          exact ⟨lv, List.mem_cons_of_mem a hlv, hkey⟩
      · rintro ⟨lv, hlv, hkey⟩
        rcases List.mem_cons.mp hlv with rfl | hlv
        · exact Or.inl hkey
        · exact Or.inr ⟨lv, hlv, hkey⟩
    · rintro r _ ⟨h1, h2⟩
      rw [decide_eq_true_eq] at h1 h2
      rcases h2 with ⟨lv, hlv, hkey⟩
      rw [h1] at hkey
      exact hnd.1 (Option.some_injective _ hkey ▸ hlv)

/-- C3 counterexample: a complete record with `bmi = 150` survives
`transform` with `bmi_category = NaN`; grouping by `bmi_category` puts
it in no group, so the group counts sum to 0 while the processed
dataset has 1 row. -/
def rawC3 : List RawRecord :=
  [⟨some 40, some "male", some 150, some 0, some "no", some "southwest", some 50⟩]

theorem C3_counterexample :
    sumCounts (transform rawC3) Factor.bmiCategory = 0
    ∧ (transform rawC3).length = 1 := by
  with_unfolding_all decide

/-- C3 (amended): for every processed dataset and grouping factor, the
group counts of `chargesByFactor` sum to the number of rows whose
grouping key is non-`NaN`; when every row has a non-`NaN` key (always
the case for `sex`/`smoker`/`region`/`children`, and for
`bmi_category`/`age_group` when every `bmi`/`age` lies in a bin) the
sum equals the total row count. -/
theorem C3_group_counts_sum :
    (∀ (d : List ProcRecord) (f : Factor),
        sumCounts d f = d.countP (fun r => (key f r).isSome))
    ∧ ∀ (d : List ProcRecord) (f : Factor),
        (∀ r ∈ d, (key f r).isSome = true) → sumCounts d f = d.length := by
  have main : ∀ (d : List ProcRecord) (f : Factor),
      sumCounts d f = d.countP (fun r => (key f r).isSome) := by
    intro d f
    have h1 : sumCounts d f
        = ((levels f d).map (fun lv => d.countP (fun r => key f r = some lv))).sum := by
      simp [sumCounts, chargesByFactor, List.map_map, Function.comp_def, groupStats_count]
    rw [h1, sum_countP_keys d f (levels f d) (levels_nodup f d)]
    refine List.countP_congr fun r hr => ?_
    simp only [decide_eq_true_eq, Option.isSome_iff_exists]
    constructor
    · rintro ⟨lv, _, hkey⟩
      exact ⟨lv, hkey⟩
    · rintro ⟨lv, hkey⟩
      exact ⟨lv, key_mem_levels f d r hr lv hkey, hkey⟩
  refine ⟨main, fun d f hall => ?_⟩
  rw [main d f]
  calc d.countP (fun r => (key f r).isSome)
      = d.countP (fun _ => true) := List.countP_congr fun r hr => by simp [hall r hr]
    _ = d.length := by simp

/-- Witness for `C3_group_counts_sum` on the processed `rawC1` grouped
by `sex` (every key non-`NaN`). -/
theorem C3_group_counts_sum_witness :
    sumCounts (transform rawC1) Factor.sex = (transform rawC1).length :=
  C3_group_counts_sum.2 (transform rawC1) Factor.sex
    (by with_unfolding_all decide)

/-- C10: `chargesByFactor` emits exactly one output row per declared
category level — `observed=False` keeps levels with no matching records
(their `count` is then the size 0 of the empty group) — and each level's
`count` is the number of rows carrying that key. -/
theorem C10_groups_per_declared_level :
    (∀ (d : List ProcRecord) (f : Factor),
        (chargesByFactor d f).map Prod.fst = levels f d)
    ∧ ∀ (d : List ProcRecord) (f : Factor) (lv : KeyVal), lv ∈ levels f d →
        (lv, groupStatsOf d f lv) ∈ chargesByFactor d f
        ∧ (groupStatsOf d f lv).count = d.countP (fun r => key f r = some lv) := by
  constructor
  · intro d f
    simp [chargesByFactor, List.map_map, Function.comp_def]
  · intro d f lv hlv
    exact ⟨List.mem_map_of_mem _ hlv, groupStats_count d f lv⟩

/-- Witness for `C10_groups_per_declared_level`: in the processed
`rawC1` (one `Underweight` record) the unobserved level `Obese` still
gets an output row, with count 0. -/
theorem C10_groups_per_declared_level_witness :
    ((KeyVal.bmiC BmiCat.Obese,
        groupStatsOf (transform rawC1) Factor.bmiCategory (KeyVal.bmiC BmiCat.Obese))
      ∈ chargesByFactor (transform rawC1) Factor.bmiCategory
    ∧ (groupStatsOf (transform rawC1) Factor.bmiCategory
        (KeyVal.bmiC BmiCat.Obese)).count
      = (transform rawC1).countP
          (fun r => key Factor.bmiCategory r = some (KeyVal.bmiC BmiCat.Obese)))
    ∧ (groupStatsOf (transform rawC1) Factor.bmiCategory
        (KeyVal.bmiC BmiCat.Obese)).count = 0 :=
  ⟨C10_groups_per_declared_level.2 (transform rawC1) Factor.bmiCategory
      (KeyVal.bmiC BmiCat.Obese) (by with_unfolding_all decide),
   by with_unfolding_all decide⟩

/-! ## C5 / C8: `identify_high_risk_profiles` (`analysis.py` lines 129-142) -/

/-- The error pandas raises inside `Series.quantile` when the requested
quantile is outside `[0, 1]` (`ValueError: percentiles should all be in
the interval [0, 1]`), the only failure path of
`identify_high_risk_profiles`. -/
inductive AnalysisError where
  | invalidPercentile
deriving DecidableEq

/-- `HealthInsuranceAnalyzer.identify_high_risk_profiles(p)`:
`threshold = charges.quantile(p/100)` — pandas validates `p/100 ∈ [0,1]`
and raises `ValueError` otherwise — then keeps the rows with
`charges >= threshold`.  On an empty dataset the quantile is `NaN` and
the `>=` comparison is `False` everywhere, giving an empty result. -/
def identifyHighRisk (d : List ProcRecord) (p : ℚ) :
    Except AnalysisError (List ProcRecord) :=
  if p / 100 < 0 ∨ 1 < p / 100 then .error .invalidPercentile
  else
    match quantileLin (d.map (fun r => r.charges)) (p / 100) with
    | none => .ok []
    | some t => .ok (d.filter (fun r => t ≤ r.charges))

theorem sortQ_length (xs : List ℚ) : (sortQ xs).length = xs.length := by
  simp [sortQ]

theorem sortQ_sorted (xs : List ℚ) :
    List.Sorted (fun a b : ℚ => a ≤ b) (sortQ xs) :=
  List.sorted_insertionSort _ xs

theorem sortQ_perm (xs : List ℚ) : (sortQ xs).Perm xs :=
  List.perm_insertionSort _ xs

/-- The head of a `≤`-sorted list bounds every element from below. -/
theorem sorted_getD_zero_le (s : List ℚ)
    (hs : List.Sorted (fun a b : ℚ => a ≤ b) s) :
    ∀ x ∈ s, s.getD 0 0 ≤ x := by
  cases s with
  | nil => intro x hx; exact absurd hx (List.not_mem_nil x)
  | cons a t =>
    intro x hx
    rcases List.mem_cons.mp hx with rfl | hx
    · simp
    · simpa using (List.sorted_cons.mp hs).1 x hx

/-- The last entry of a `≤`-sorted list bounds every element from
above. -/
theorem le_sorted_getD_last :
    ∀ (s : List ℚ), List.Sorted (fun a b : ℚ => a ≤ b) s →
      ∀ x ∈ s, x ≤ s.getD (s.length - 1) 0
  | [], _, x, hx => absurd hx (List.not_mem_nil x)
  | [a], _, x, hx => by
      rcases List.mem_singleton.mp hx with rfl
      simp
  | a :: b :: t, hs, x, hx => by
      have hs1 := (List.sorted_cons.mp hs).1
      have hs2 := (List.sorted_cons.mp hs).2
      have hrec := le_sorted_getD_last (b :: t) hs2
      have hgd : (a :: b :: t).getD ((a :: b :: t).length - 1) 0
          = (b :: t).getD ((b :: t).length - 1) 0 := by
        simp [List.getD_cons_succ]
      rw [hgd]
      rcases List.mem_cons.mp hx with rfl | hx
      · exact le_trans (hs1 b (List.mem_cons_self b t))
          (hrec b (List.mem_cons_self b t))
      · exact hrec x hx

/-- `quantile(1)` is the last element of the sorted data. -/
theorem quantileLin_one (xs : List ℚ) (hxs : xs ≠ []) :
    quantileLin xs 1 = some ((sortQ xs).getD (xs.length - 1) 0) := by
  have hne : xs.isEmpty = false := by simpa [List.isEmpty_iff] using hxs
  have hn1 : 1 ≤ xs.length := List.length_pos.mpr hxs
  unfold quantileLin
  rw [if_neg (by simp [hne])]
  dsimp only
  have hh : (1 : ℚ) * (((sortQ xs).length : ℚ) - 1) = ((xs.length : ℚ) - 1) := by
    rw [sortQ_length]; ring
  have hfloor : Int.floor ((xs.length : ℚ) - 1) = (xs.length : ℤ) - 1 := by
    rw [show ((xs.length : ℚ) - 1) = (((xs.length : ℤ) - 1 : ℤ) : ℚ) by push_cast; ring]
    exact Int.floor_intCast _
  have hi : (Int.floor ((1 : ℚ) * (((sortQ xs).length : ℚ) - 1))).toNat
      = xs.length - 1 := by
    rw [hh, hfloor]; omega
  rw [hi]
  rw [if_neg (by rw [sortQ_length]; omega)]
  rw [sortQ_length]

/-- `quantile(0)` is the first element of the sorted data. -/
theorem quantileLin_zero (xs : List ℚ) (hxs : xs ≠ []) :
    quantileLin xs 0 = some ((sortQ xs).getD 0 0) := by
  have hne : xs.isEmpty = false := by simpa [List.isEmpty_iff] using hxs
  unfold quantileLin
  rw [if_neg (by simp [hne])]
  dsimp only
  have hh : (0 : ℚ) * (((sortQ xs).length : ℚ) - 1) = 0 := by ring
  have hi : (Int.floor ((0 : ℚ) * (((sortQ xs).length : ℚ) - 1))).toNat = 0 := by
    rw [hh]; simp
  rw [hi]
  split
  · congr 1
    rw [hh]
    push_cast
    ring
  · rename_i hlt
    have hn1 : 1 ≤ xs.length := List.length_pos.mpr hxs
    rw [sortQ_length] at hlt
    have h1 : xs.length = 1 := by omega
    rw [sortQ_length, h1]

/-- C5: on a non-empty processed dataset, `identify_high_risk_profiles`
at percentile 100 returns exactly the records whose `charges` equal the
maximum charges value (the `>=` threshold comparison is inclusive), and
at percentile 0 returns the full dataset. -/
theorem C5_high_risk_extremes :
    ∀ d : List ProcRecord, d ≠ [] →
      (∃ M : ℚ, M ∈ d.map (fun r => r.charges)
        ∧ (∀ x ∈ d.map (fun r => r.charges), x ≤ M)
        ∧ identifyHighRisk d 100 = .ok (d.filter (fun r => r.charges = M)))
      ∧ identifyHighRisk d 0 = .ok d := by
  intro d hd
  have hxs : d.map (fun r => r.charges) ≠ [] := by
    simp [List.map_eq_nil_iff, hd]
  have hsorted := sortQ_sorted (d.map (fun r => r.charges))
  have hperm := sortQ_perm (d.map (fun r => r.charges))
  have hlen := sortQ_length (d.map (fun r => r.charges))
  constructor
  · refine ⟨(sortQ (d.map (fun r => r.charges))).getD
        ((d.map (fun r => r.charges)).length - 1) 0, ?_, ?_, ?_⟩
    · refine hperm.mem_iff.mp ?_
      have hlt : (d.map (fun r => r.charges)).length - 1
          < (sortQ (d.map (fun r => r.charges))).length := by
        rw [hlen]
        have := List.length_pos.mpr hxs
        omega
      rw [List.getD_eq_getElem _ _ hlt]
      exact List.getElem_mem hlt
    · intro x hx
      have := le_sorted_getD_last (sortQ (d.map (fun r => r.charges))) hsorted x
        (hperm.mem_iff.mpr hx)
      rwa [hlen] at this
    · unfold identifyHighRisk
      rw [if_neg (by norm_num)]
      rw [show (100 : ℚ) / 100 = 1 by norm_num,
        quantileLin_one (d.map (fun r => r.charges)) hxs]
      simp only []
      congr 1
      refine List.filter_congr fun r hr => ?_
      have hle : r.charges ≤ (sortQ (d.map (fun r => r.charges))).getD
          ((d.map (fun r => r.charges)).length - 1) 0 := by
        have := le_sorted_getD_last (sortQ (d.map (fun r => r.charges))) hsorted
          r.charges (hperm.mem_iff.mpr (List.mem_map_of_mem _ hr))
        rwa [hlen] at this
      simp only [decide_eq_decide]
      exact ⟨fun h => le_antisymm hle h, fun h => h ▸ le_refl _⟩
  · unfold identifyHighRisk
    rw [if_neg (by norm_num)]
    rw [show (0 : ℚ) / 100 = 0 by norm_num,
      quantileLin_zero (d.map (fun r => r.charges)) hxs]
    simp only []
    congr 1
    refine List.filter_eq_self.mpr fun r hr => ?_
    simp only [decide_eq_true_eq]
    exact sorted_getD_zero_le (sortQ (d.map (fun r => r.charges))) hsorted
      r.charges (hperm.mem_iff.mpr (List.mem_map_of_mem _ hr))

/-- Witness for `C5_high_risk_extremes` on the concrete two-record
dataset `mixedD`. -/
theorem C5_high_risk_extremes_witness :
    (∃ M : ℚ, M ∈ mixedD.map (fun r => r.charges)
      ∧ (∀ x ∈ mixedD.map (fun r => r.charges), x ≤ M)
      ∧ identifyHighRisk mixedD 100 = .ok (mixedD.filter (fun r => r.charges = M)))
    ∧ identifyHighRisk mixedD 0 = .ok mixedD :=
  C5_high_risk_extremes mixedD (by with_unfolding_all decide)

/-- C8: a percentile argument outside `[0, 100]` makes
`identify_high_risk_profiles` fail with the distinct catchable
`ValueError` that pandas raises while validating the quantile — no
dataset is returned. -/
theorem C8_percentile_validation :
    ∀ (d : List ProcRecord) (p : ℚ), p < 0 ∨ 100 < p →
      identifyHighRisk d p = .error AnalysisError.invalidPercentile := by
  intro d p hp
  unfold identifyHighRisk
  rw [if_pos]
  rcases hp with h | h
  · exact Or.inl (div_neg_of_neg_of_pos h (by norm_num))
  · exact Or.inr ((one_lt_div (by norm_num)).mpr h)

/-- Witness for `C8_percentile_validation` at percentile 150. -/
theorem C8_percentile_validation_witness :
    identifyHighRisk mixedD 150 = .error AnalysisError.invalidPercentile :=
  C8_percentile_validation mixedD 150 (Or.inr (by norm_num))

/-! ## C6: `correlation_analysis` (`analysis.py` lines 119-127)

`self.data.select_dtypes(include=[np.number])` selects exactly the six
numeric columns of the processed frame — `age`, `bmi`, `children`,
`charges`, `is_smoker`, `charges_per_person` (the `category`-typed
columns `sex`/`smoker`/`region`/`bmi_category`/`age_group` are not
numeric) — and `.corr()` computes the Pearson matrix
`entry(i,j) = cov(i,j) / (√var(i) · √var(j))` with sample (`ddof=1`)
moments, emitting `NaN` whenever the divisor is zero (constant column,
or a single-row frame), then `.round(3)`.

Correlation entries are square roots of rationals, so the entry value is
specified relationally over `ℝ`: `corrEntryRel d i j c` states the
defining equation `c · √(var i · var j) = cov i j` of the entry.  When
both variances are nonzero this pins `c` to the Pearson coefficient;
when a variance is zero pandas produces `NaN` (`corrNaN`), and the
equation degenerates (every `c` satisfies it — the matrix has no defined
value there). -/

/-- The six numeric columns of the processed frame, in frame order. -/
inductive NumCol where
  | age | bmi | children | charges | isSmoker | chargesPerPerson
deriving DecidableEq

/-- The numeric value of one column in one row. -/
def colVal : NumCol → ProcRecord → ℚ
  | .age, r => r.age
  | .bmi, r => r.bmi
  | .children, r => (r.children : ℚ)
  | .charges, r => r.charges
  | .isSmoker, r => (r.is_smoker : ℚ)
  | .chargesPerPerson, r => r.charges_per_person

/-- One numeric column of the processed frame. -/
def column (c : NumCol) (d : List ProcRecord) : List ℚ := d.map (colVal c)

/-- Arithmetic mean (division by zero gives the junk value 0 on an
empty list; every use below is guarded by a variance hypothesis). -/
def qMean (xs : List ℚ) : ℚ := xs.sum / (xs.length : ℚ)

/-- Sample covariance with `ddof=1`, as pandas uses for `corr`:
`Σ (x-x̄)(y-ȳ) / (n-1)`.  For `n ≤ 1` the `ℚ`-division yields 0, which
matches pandas in the only way that matters here: the corresponding
variance is 0 and the correlation entry is `NaN`. -/
def sampleCov (xs ys : List ℚ) : ℚ :=
  (List.zipWith (fun x y => (x - qMean xs) * (y - qMean ys)) xs ys).sum
    / ((xs.length : ℚ) - 1)

/-- Sample variance: covariance of a column with itself. -/
def sampleVar (xs : List ℚ) : ℚ := sampleCov xs xs

/-- pandas emits `NaN` for entry `(i,j)` exactly when the divisor
`√var(i) · √var(j)` is zero. -/
def corrNaN (d : List ProcRecord) (i j : NumCol) : Bool :=
  decide (sampleVar (column i d) = 0 ∨ sampleVar (column j d) = 0)

/-- The defining equation of the `(i,j)` Pearson entry `c`:
`c · √(var i · var j) = cov i j`. -/
def corrEntryRel (d : List ProcRecord) (i j : NumCol) (c : ℝ) : Prop :=
  c * Real.sqrt ((sampleVar (column i d) : ℝ) * (sampleVar (column j d) : ℝ))
    = (sampleCov (column i d) (column j d) : ℝ)

theorem sampleVar_nonneg (xs : List ℚ) : 0 ≤ sampleVar xs := by
  cases xs with
  | nil => simp [sampleVar, sampleCov]
  | cons a t =>
    unfold sampleVar sampleCov
    apply div_nonneg
    · rw [List.zipWith_same]
      apply List.sum_nonneg
      intro x hx
      rcases List.mem_map.mp hx with ⟨y, _, rfl⟩
      exact mul_self_nonneg _
    · have h1 : (1 : ℚ) ≤ ((a :: t).length : ℚ) := by
        exact_mod_cast Nat.succ_le_of_lt (Nat.succ_pos t.length)
      linarith

theorem sampleCov_comm (xs ys : List ℚ) (h : xs.length = ys.length) :
    sampleCov xs ys = sampleCov ys xs := by
  unfold sampleCov
  rw [h]
  congr 1
  rw [List.zipWith_comm]
  have hf : (fun (b a : ℚ) => (a - qMean xs) * (b - qMean ys))
      = fun (x y : ℚ) => (x - qMean ys) * (y - qMean xs) := by
    funext b a
    ring
  rw [hf]

theorem column_length (c : NumCol) (d : List ProcRecord) :
    (column c d).length = d.length := by
  simp [column]

/-- C6 counterexample: in a processed dataset whose records are all
smokers the `is_smoker` column is constant, its sample variance is 0,
and pandas produces `NaN` — not 1.0 — on that diagonal entry of the
correlation matrix; the defining equation degenerates and is satisfied
by `0` (indeed by every real), so the diagonal is not 1.0 there. -/
theorem C6_nan_diagonal_counterexample :
    corrNaN allSmokersD NumCol.isSmoker NumCol.isSmoker = true
    ∧ corrEntryRel allSmokersD NumCol.isSmoker NumCol.isSmoker 0 := by
  have hv : sampleVar (column NumCol.isSmoker allSmokersD) = 0 := by
    with_unfolding_all decide
  constructor
  · simp [corrNaN, hv]
  · unfold corrEntryRel
    rw [show sampleCov (column NumCol.isSmoker allSmokersD)
          (column NumCol.isSmoker allSmokersD)
        = sampleVar (column NumCol.isSmoker allSmokersD) from rfl, hv]
    norm_num

/-- C6 (amended): the Pearson matrix of `correlation_analysis` ranges
over exactly the six numeric columns and is symmetric, and every
diagonal entry of a column with nonzero sample variance equals 1.0
(rounding to 3 decimals preserves both properties); for a
constant (zero-variance) column the entries of its row and column,
including the diagonal, are `NaN` rather than 1.0. -/
theorem C6_correlation_matrix :
    (∀ (d : List ProcRecord) (i j : NumCol) (c c' : ℝ),
        sampleVar (column i d) ≠ 0 → sampleVar (column j d) ≠ 0 →
        corrEntryRel d i j c → corrEntryRel d j i c' → c = c')
    ∧ ∀ (d : List ProcRecord) (i : NumCol) (c : ℝ),
        sampleVar (column i d) ≠ 0 → corrEntryRel d i i c → c = 1 := by
  constructor
  · intro d i j c c' hi hj hc hc'
    unfold corrEntryRel at hc hc'
    rw [sampleCov_comm (column j d) (column i d)
        (by rw [column_length, column_length])] at hc'
    rw [mul_comm ((sampleVar (column j d) : ℝ))] at hc'
    have hs : Real.sqrt ((sampleVar (column i d) : ℝ)
        * (sampleVar (column j d) : ℝ)) ≠ 0 := by
      have hipos : (0 : ℝ) < (sampleVar (column i d) : ℝ) :=
        lt_of_le_of_ne (by exact_mod_cast sampleVar_nonneg _)
          (by exact_mod_cast (Ne.symm hi))
      have hjpos : (0 : ℝ) < (sampleVar (column j d) : ℝ) :=
        lt_of_le_of_ne (by exact_mod_cast sampleVar_nonneg _)
          (by exact_mod_cast (Ne.symm hj))
      exact ne_of_gt (Real.sqrt_pos.mpr (mul_pos hipos hjpos))
    exact mul_right_cancel₀ hs (hc.trans hc'.symm)
  · intro d i c hi hc
    unfold corrEntryRel at hc
    have hnn : (0 : ℝ) ≤ (sampleVar (column i d) : ℝ) := by
      exact_mod_cast sampleVar_nonneg (column i d)
    rw [Real.sqrt_mul_self hnn] at hc
    have hcov : (sampleCov (column i d) (column i d) : ℝ)
        = (sampleVar (column i d) : ℝ) := rfl
    rw [hcov] at hc
    have hne : ((sampleVar (column i d) : ℝ)) ≠ 0 := by exact_mod_cast hi
    refine mul_right_cancel₀ hne ?_
    rw [one_mul]
    exact hc

/-- A two-record analyzer input with non-constant `age` and `bmi`
columns (`age` values 1, 3; `bmi` values 1, 2). -/
def varD : List ProcRecord :=
  [{ age := 1, sex := "male", bmi := 1, children := 0, smoker := "yes",
     region := "southwest", charges := 3,
     bmi_category := some BmiCat.Underweight, age_group := some AgeGrp.g18_25,
     is_smoker := 1, charges_per_person := 3 },
   { age := 3, sex := "female", bmi := 2, children := 0, smoker := "no",
     region := "southwest", charges := 4,
     bmi_category := some BmiCat.Underweight, age_group := some AgeGrp.g18_25,
     is_smoker := 0, charges_per_person := 4 }]

theorem varD_age_var : sampleVar (column NumCol.age varD) = 2 := by
  with_unfolding_all decide

theorem varD_bmi_var : sampleVar (column NumCol.bmi varD) = mkRat 1 2 := by
  with_unfolding_all decide

theorem varD_age_bmi_cov :
    sampleCov (column NumCol.age varD) (column NumCol.bmi varD) = 1 := by
  with_unfolding_all decide

theorem varD_rel_age_bmi : corrEntryRel varD NumCol.age NumCol.bmi 1 := by
  unfold corrEntryRel
  rw [varD_age_var, varD_bmi_var, varD_age_bmi_cov]
  rw [show ((2 : ℚ) : ℝ) * ((mkRat 1 2 : ℚ) : ℝ) = 1 by
    rw [show (mkRat 1 2 : ℚ) = 1 / 2 by norm_num [Rat.mkRat_eq_div]]
    push_cast
    ring]
  rw [Real.sqrt_one]
  norm_num

theorem varD_rel_bmi_age : corrEntryRel varD NumCol.bmi NumCol.age 1 := by
  unfold corrEntryRel
  rw [varD_age_var, varD_bmi_var,
    sampleCov_comm (column NumCol.bmi varD) (column NumCol.age varD)
      (by rw [column_length, column_length]),
    varD_age_bmi_cov]
  rw [show ((mkRat 1 2 : ℚ) : ℝ) * ((2 : ℚ) : ℝ) = 1 by
    rw [show (mkRat 1 2 : ℚ) = 1 / 2 by norm_num [Rat.mkRat_eq_div]]
    push_cast
    ring]
  rw [Real.sqrt_one]
  norm_num

theorem varD_rel_age_age : corrEntryRel varD NumCol.age NumCol.age 1 := by
  unfold corrEntryRel
  rw [varD_age_var]
  rw [show ((2 : ℚ) : ℝ) * ((2 : ℚ) : ℝ) = 2 * 2 by push_cast; ring]
  rw [Real.sqrt_mul_self (by norm_num : (0:ℝ) ≤ 2)]
  rw [show sampleCov (column NumCol.age varD) (column NumCol.age varD)
      = sampleVar (column NumCol.age varD) from rfl, varD_age_var]
  push_cast
  ring

/-- Witness for `C6_correlation_matrix` on the concrete dataset `varD`:
the symmetry part applied to the `(age, bmi)` entry and the diagonal
part applied to the `(age, age)` entry. -/
theorem C6_correlation_matrix_witness :
    ((1 : ℝ) = 1) ∧ ((1 : ℝ) = 1) :=
  ⟨C6_correlation_matrix.1 varD NumCol.age NumCol.bmi 1 1
      (by rw [varD_age_var]; norm_num)
      (by rw [varD_bmi_var]; norm_num [Rat.mkRat_eq_div])
      varD_rel_age_bmi varD_rel_bmi_age,
   C6_correlation_matrix.2 varD NumCol.age 1
      (by rw [varD_age_var]; norm_num)
      varD_rel_age_age⟩

/-! ## C9: no pipeline operation mutates its input dataset

The Python objects hold shared mutable state (`self.raw_data`,
`self.processed_data`, `self.data`).  The embedding makes that state
explicit: each operation takes the object state and returns the result
*paired with the state as the call leaves it*, translating the source
statement by statement — a statement assigning to a state attribute or
mutating a held frame in place becomes a state update; statements that
only build new frames leave the state component untouched.

* `transform` (`etl.py` lines 57-99) starts with
  `data = self.raw_data.copy()`, so the column assignments and `dropna`
  rebinding act on the copy; the only state writes are
  `self.processed_data = data` — `raw_data` is never written.
* every analyzer method (`analysis.py`) only reads `self.data`
  (boolean-mask filtering, `groupby`, `corr`, `describe`, `quantile`
  and `value_counts` all allocate fresh objects); `self.data` is
  assigned only in `__init__`. -/

/-- The `describe()` row of one numeric column.  The `std` field of
`describe` is omitted (a square root, irrational; no claim concerns
it); quartiles use the same linear interpolation as `quantile`. -/
structure DescribeStats where
  count : ℕ
  mean : Option ℚ
  min : Option ℚ
  q25 : Option ℚ
  q50 : Option ℚ
  q75 : Option ℚ
  max : Option ℚ
deriving DecidableEq

/-- The numeric columns in frame order. -/
def numCols : List NumCol :=
  [NumCol.age, NumCol.bmi, NumCol.children, NumCol.charges,
   NumCol.isSmoker, NumCol.chargesPerPerson]

def describeCol (xs : List ℚ) : DescribeStats :=
  { count := xs.length
    mean := seriesMean xs
    min := listMin xs
    q25 := quantileLin xs (1 / 4)
    q50 := quantileLin xs (1 / 2)
    q75 := quantileLin xs (3 / 4)
    max := listMax xs }

/-- `get_basic_statistics` = `self.data.describe()` over the numeric
columns. -/
def basicStatistics (d : List ProcRecord) : List (NumCol × DescribeStats) :=
  numCols.map (fun c => (c, describeCol (column c d)))

/-- `value_counts().to_dict()` of a string column: each distinct value
with its frequency (pandas sorts by descending count; order is
immaterial here and first-occurrence order is used). -/
def valueCounts (l : List String) : List (String × ℕ) :=
  l.dedup.map (fun v => (v, l.count v))

/-- The fixed field set of `get_key_insights` (`analysis.py`
lines 144-185). -/
structure KeyInsights where
  total_records : ℕ
  avg_age : Option ℚ
  avg_bmi : Option ℚ
  avg_charges : Option ℚ
  median_charges : Option ℚ
  smoker_percentage : ℚ
  smoker_charge_increase : Option ℚ
  youngest_age : Option ℚ
  oldest_age : Option ℚ
  min_bmi : Option ℚ
  max_bmi : Option ℚ
  min_charges : Option ℚ
  max_charges : Option ℚ
  charges_range : Option ℚ
  gender_distribution : List (String × ℕ)
  regional_distribution : List (String × ℕ)
deriving DecidableEq

/-- `get_key_insights`: a composition of the primitives.  When the
smoker and non-smoker counts are both 0 the Python expression
`smoker_count / (smoker_count + non_smoker_count)` raises
`ZeroDivisionError` (integer operands), modelled as the error case. -/
def keyInsights (d : List ProcRecord) : Except String KeyInsights :=
  let imp := analyzeSmokerImpact d
  if imp.smoker_count + imp.non_smoker_count = 0 then
    .error "ZeroDivisionError"
  else
    .ok { total_records := d.length
          avg_age := seriesMean (column NumCol.age d)
          avg_bmi := seriesMean (column NumCol.bmi d)
          avg_charges := seriesMean (column NumCol.charges d)
          median_charges := quantileLin (column NumCol.charges d) (1 / 2)
          smoker_percentage :=
            (imp.smoker_count : ℚ)
              / ((imp.smoker_count : ℚ) + (imp.non_smoker_count : ℚ)) * 100
          smoker_charge_increase := imp.percentage_increase
          youngest_age := listMin (column NumCol.age d)
          oldest_age := listMax (column NumCol.age d)
          min_bmi := listMin (column NumCol.bmi d)
          max_bmi := listMax (column NumCol.bmi d)
          min_charges := listMin (column NumCol.charges d)
          max_charges := listMax (column NumCol.charges d)
          charges_range := do
            let mx ← listMax (column NumCol.charges d)
            let mn ← listMin (column NumCol.charges d)
            pure (mx - mn)
          gender_distribution := valueCounts (d.map (fun r => r.sex))
          regional_distribution := valueCounts (d.map (fun r => r.region)) }

/-- The rational data determining `correlation_analysis`: the table of
sample covariances of the numeric columns.  The Pearson entry `(i,j)`
is `covTable[i][j] / (√covTable[i][i] · √covTable[j][j])`, rounded to 3
decimals — see `corrEntryRel`. -/
def covTable (d : List ProcRecord) : List (List ℚ) :=
  numCols.map (fun i => numCols.map (fun j => sampleCov (column i d) (column j d)))

/-- The mutable state of a `HealthInsuranceETL` object. -/
structure EtlState where
  raw : Option (List RawRecord)
  processed : Option (List ProcRecord)
deriving DecidableEq

/-- `transform()` with no argument as the pipeline calls it
(`etl.py` lines 57-99): `ValueError` when no raw data is loaded;
otherwise it copies the raw frame, processes the copy and assigns the
result to `processed_data` only.  The returned state is the object
state after the call. -/
def transformRun (s : EtlState) :
    Except String (List ProcRecord × EtlState) :=
  match s.raw with
  | none => .error "No data available. Run extract() first."
  | some raw => .ok (transform raw, { s with processed := some (transform raw) })

/-- The state of a `HealthInsuranceAnalyzer` object: the processed
dataset handed to `__init__`. -/
structure AnalyzerState where
  data : List ProcRecord
deriving DecidableEq

/-- `get_basic_statistics` with its state after the call. -/
def basicStatisticsRun (a : AnalyzerState) :
    List (NumCol × DescribeStats) × AnalyzerState :=
  (basicStatistics a.data, a)

/-- `analyze_charges_by_factor` with its state after the call. -/
def chargesByFactorRun (f : Factor) (a : AnalyzerState) :
    List (KeyVal × GroupStats) × AnalyzerState :=
  (chargesByFactor a.data f, a)

/-- `analyze_smoker_impact` with its state after the call. -/
def smokerImpactRun (a : AnalyzerState) : SmokerImpact × AnalyzerState :=
  (analyzeSmokerImpact a.data, a)

/-- `correlation_analysis` with its state after the call. -/
def correlationRun (a : AnalyzerState) : List (List ℚ) × AnalyzerState :=
  (covTable a.data, a)

/-- `identify_high_risk_profiles` with its state after the call. -/
def highRiskRun (p : ℚ) (a : AnalyzerState) :
    Except AnalysisError (List ProcRecord) × AnalyzerState :=
  (identifyHighRisk a.data p, a)

/-- `get_key_insights` with its state after the call. -/
def keyInsightsRun (a : AnalyzerState) :
    Except String KeyInsights × AnalyzerState :=
  (keyInsights a.data, a)

/-- C9: `transform` leaves the raw dataset of the ETL state unchanged
(it works on a copy and writes only `processed_data`), and every
analyzer computation leaves the processed dataset it reads unchanged. -/
theorem C9_no_mutation :
    (∀ (s : EtlState) (out : List ProcRecord) (s' : EtlState),
        transformRun s = .ok (out, s') → s'.raw = s.raw)
    ∧ (∀ a : AnalyzerState, (basicStatisticsRun a).2 = a)
    ∧ (∀ (a : AnalyzerState) (f : Factor), (chargesByFactorRun f a).2 = a)
    ∧ (∀ a : AnalyzerState, (smokerImpactRun a).2 = a)
    ∧ (∀ a : AnalyzerState, (correlationRun a).2 = a)
    ∧ (∀ (a : AnalyzerState) (p : ℚ), (highRiskRun p a).2 = a)
    ∧ (∀ a : AnalyzerState, (keyInsightsRun a).2 = a) := by
  refine ⟨?_, fun a => rfl, fun a f => rfl, fun a => rfl, fun a => rfl,
    fun a p => rfl, fun a => rfl⟩
  intro s out s' h
  cases hr : s.raw with
  | none => rw [transformRun, hr] at h; exact absurd h (by simp)
  | some raw =>
    rw [transformRun, hr] at h
    simp only [Except.ok.injEq, Prod.mk.injEq] at h
    rw [← h.2]

/-- The ETL state right after `extract()` of `rawC1`, and the state
`transform()` leaves behind. -/
def etlS0 : EtlState := ⟨some rawC1, none⟩

def etlS1 : EtlState := ⟨some rawC1, some (transform rawC1)⟩

/-- Witness for `C9_no_mutation`: the concrete `transform()` call on
`etlS0` leaves the raw dataset in place. -/
theorem C9_no_mutation_witness : etlS1.raw = etlS0.raw :=
  C9_no_mutation.1 etlS0 (transform rawC1) etlS1 rfl

end H1
